import Mathlib

/-
Verification of the core streaming-annotation pipeline of the Xperiment
repository (file 409rollingsummary.py, with rollingsummary.py as a close
variant).  The Python functions are shallowly embedded as pure Lean
functions: the mutable per-session state of each worker becomes an explicit
state record threaded through a fold over the input stream, file appends
become list appends, and the generation backend becomes an explicit
call-indexed function returning an Except value (ok text or a request
error), mirroring the try/except around requests.post in the source.
-/

namespace Xperiment

/-- One role-tagged message of an LLM chat payload (a Python dict with
keys role and content). -/
structure Msg where
  role : String
  content : String
deriving DecidableEq, Repr

/-- A collected item, as written to tweets.jsonl by scrape_worker
(409rollingsummary.py lines 148-152). -/
structure Tweet where
  timestamp : String
  from_user : String
  content : String
deriving DecidableEq, Repr

/-- An annotated item, as written to commentary.jsonl by llm_worker
(409rollingsummary.py lines 215-220). -/
structure AnnotatedTweet where
  timestamp : String
  from_user : String
  content : String
  llm_commentary : String
deriving DecidableEq, Repr

/-- A batch-summary record, as written to summary.jsonl by llm_worker
(409rollingsummary.py lines 245-250).  The generated_at wall-clock field
is irrelevant to every property considered here and is omitted. -/
structure SummaryRecord where
  block_tweets : List String
  summary : String
deriving DecidableEq, Repr

/-- Python set add (seen_timestamps.add): inserts the key if absent. -/
def setAdd (s : List String) (x : String) : List String :=
  if x ∈ s then s else x :: s

/-- A raw candidate item as extracted from one article element by
scrape_worker.  A field is none when the corresponding locator call raised
or returned null (the source wraps each extraction in try/except and
continues); from_user extraction failure just leaves the handle empty
(409rollingsummary.py lines 131-139). -/
structure Candidate where
  timestamp : Option String
  from_user : String
  content : Option String
deriving DecidableEq, Repr

/-- The state mutated by scrape_worker while iterating over candidates:
the in-memory seen set, the tweets.jsonl append-only log, and the queue of
items handed to the llm worker. -/
structure ScrapeState where
  seen : List String
  tweetLog : List Tweet
  queue : List Tweet
deriving DecidableEq, Repr

/-- The per-candidate body of the scrape_worker loop
(409rollingsummary.py lines 107-161): extract the timestamp (skip on
failure, on null, on empty, or if already seen), mark it seen, then
extract the content (skip on failure or empty), and only then append the
item to tweets.jsonl and put it on the queue. -/
def processCandidate (s : ScrapeState) (c : Candidate) : ScrapeState :=
  match c.timestamp with
  | none => s
  | some ts =>
    if ts = "" ∨ ts ∈ s.seen then s
    else
      let seen1 := setAdd s.seen ts
      match c.content with
      | none => { s with seen := seen1 }
      | some body =>
        if body = "" then { s with seen := seen1 }
        else
          let tw : Tweet := ⟨ts, c.from_user, body⟩
          ⟨seen1, s.tweetLog ++ [tw], s.queue ++ [tw]⟩

/-- scrape_worker restricted to its collection logic: fold the candidate
stream (all articles seen over all scrolls, in encounter order) through
the per-candidate body, starting from the seen set the orchestrator
rebuilt from the commentary log. -/
def scrape_worker (seen0 : List String) (cands : List Candidate) : ScrapeState :=
  cands.foldl processCandidate ⟨seen0, [], []⟩

/-- One step of the replay loops of the source (for line in f: try
json.loads... except continue): a parsed record is appended to the
accumulator, a malformed line is skipped. -/
def replayStep (parse : String → Option α) (acc : List α) (line : String) : List α :=
  match parse line with
  | some r => acc ++ [r]
  | none => acc

/-- Replay of a newline-delimited record file, as in
generate_overall_report lines 26-31 and the feed route: accumulate the
records of the lines that parse, skipping malformed lines. -/
def replayLines (parse : String → Option α) (lines : List String) : List α :=
  lines.foldl (replayStep parse) []

/-- Modelled from the spec: the valid records of the log, in write order
(spec section 8, idempotent replay).  Stated independently of the
source loop for comparison with replayLines. -/
def validRecords (parse : String → Option α) (lines : List String) : List α :=
  lines.filterMap parse

/-- The seen-set rebuild at orchestrator start (409rollingsummary.py
lines 302-311): for each line of commentary.jsonl that parses, add its
timestamp to the set unless the field is missing or empty.  parseLine
collapses json.loads plus obj.get: none means the line is malformed or
has no timestamp field. -/
def rebuildStep (parseLine : String → Option String) (seen : List String) (line : String) : List String :=
  match parseLine line with
  | some ts => if ts = "" then seen else setAdd seen ts
  | none => seen

def rebuildSeen (parseLine : String → Option String) (lines : List String) : List String :=
  lines.foldl (rebuildStep parseLine) []

/-- The queue.Queue of the Python standard library: maxsize 0 means
infinite capacity. -/
structure PyQueue (α : Type) where
  maxsize : Nat
  items : List α

/-- Queue.put appends at the tail (FIFO). -/
def qput (q : PyQueue α) (a : α) : PyQueue α :=
  ⟨q.maxsize, q.items ++ [a]⟩

/-- Whether Queue.put would block: only when a positive maxsize is
reached. -/
def put_would_block (q : PyQueue α) : Bool :=
  decide (0 < q.maxsize ∧ q.maxsize ≤ q.items.length)

/-- The queue the orchestrator creates at line 314: Queue() with the
default maxsize of zero, i.e. unlimited. -/
def orchestratorQueue : PyQueue Tweet := ⟨0, []⟩

/-- The generation backend (requests.post against the chat-completions
endpoint): an external collaborator, modelled as a function of the call
index within the session (external nondeterminism) and the message
payload, returning the text of a successful response or the exception
text of a failed call. -/
def Backend : Type := Nat → List Msg → Except String String

/-- Removes the first non-greedy think-tagged span of the text, if a
matched open tag followed by a close tag exists (one substitution step of
the regex in strip_think_tags, 409rollingsummary.py line 16). -/
def removeFirstThink (s : String) : Option String :=
  match s.splitOn "<think>" with
  | pre :: rest :: more =>
    let tail := String.intercalate "<think>" (rest :: more)
    match tail.splitOn "</think>" with
    | _ :: c :: cs => some (pre ++ String.intercalate "</think>" (c :: cs))
    | _ => none
  | _ => none

/-- Fuelled iteration of removeFirstThink. -/
def stripThinkFuel : Nat → String → String
  | 0, s => s
  | Nat.succ n, s =>
    match removeFirstThink s with
    | some t => stripThinkFuel n t
    | none => s

/-- strip_think_tags: delete every non-greedy think-tagged span
(re.sub with DOTALL, 409rollingsummary.py lines 15-16). -/
def strip_think_tags (s : String) : String :=
  stripThinkFuel s.length s

/-- The Python expression from_user or-else someone: an empty handle
falls back to the literal someone. -/
def orSomeone (u : String) : String :=
  if u = "" then "someone" else u

/-- The per-item user message built by llm_worker (line 194). -/
def user_msg (t : Tweet) : String :=
  "[" ++ t.timestamp ++ "] Tweet from @" ++ orSomeone t.from_user ++ ":\n"
    ++ t.content ++ "\nWrite a brief psychological or strategic interpretation."

/-- The Python negative-index slice l[-n:]: for n = 0 this is the whole
list (since l[-0:] is l[0:]), otherwise the last n elements. -/
def pySliceLast (n : Nat) (l : List α) : List α :=
  if n = 0 then l else l.drop (l.length - n)

/-- The rolling-context trim of llm_worker lines 196-197: when the list
exceeds N + 1 entries keep the leading preamble entry plus the slice of
the last N entries. -/
def trimCtx (N : Nat) (ctx1 : List Msg) : List Msg :=
  if ctx1.length > N + 1 then ctx1.take 1 ++ pySliceLast N ctx1 else ctx1

/-- The guarded backend call of llm_worker lines 206-212: a successful
response is stripped, a raised exception becomes the in-line error
marker. -/
def annotate (backend : Backend) (calls : Nat) (ctx : List Msg) : String :=
  match backend calls ctx with
  | Except.ok raw => raw.trim
  | Except.error e => "[LLM ERROR: " ++ e ++ "]"

/-- The state mutated by llm_worker across queue items: the rolling chat
context, the pending block buffer, the commentary.jsonl log, the
summary.jsonl log, and the number of backend calls made so far. -/
structure LlmState where
  context : List Msg
  block_tweets : List AnnotatedTweet
  commentary_log : List AnnotatedTweet
  summary_log : List SummaryRecord
  calls : Nat
deriving Repr

/-- One line of the block string built for the batch-summary prompt
(409rollingsummary.py lines 227-230). -/
def blockLine (item : AnnotatedTweet) : String :=
  "[" ++ item.timestamp ++ "] @" ++ item.from_user ++ " tweeted:\n"
    ++ item.content ++ "\nLLM Commentary:\n" ++ strip_think_tags item.llm_commentary

/-- Ordering of annotated items by their timestamp field, the sort key of
block_tweets.sort (lines 226 and 255). -/
def byTimestamp (a b : AnnotatedTweet) : Prop :=
  a.timestamp ≤ b.timestamp

instance : DecidableRel byTimestamp :=
  fun a b => (inferInstance : Decidable (a.timestamp ≤ b.timestamp))

instance : IsTotal AnnotatedTweet byTimestamp :=
  ⟨fun a b => le_total a.timestamp b.timestamp⟩

instance : IsTrans AnnotatedTweet byTimestamp :=
  ⟨fun _ _ _ hab hbc => le_trans hab hbc⟩

/-- The batch-summary step of llm_worker (lines 225-250, identically
lines 254-279 for the remainder): sort the block by timestamp, build one
synthesis prompt over the whole block, make one backend call (an
exception becomes the in-line summary error marker), and record the
member timestamps of the sorted block with the summary text. -/
def summarizeBlock (backend : Backend) (calls : Nat) (summary_prompt : String)
    (blk : List AnnotatedTweet) : SummaryRecord :=
  let sorted := List.insertionSort byTimestamp blk
  let block_str := String.intercalate "\n\n" (sorted.map blockLine)
  let sum_text :=
    match backend calls [⟨"user", summary_prompt ++ "\n\n" ++ block_str⟩] with
    | Except.ok raw => raw.trim
    | Except.error e => "[SUMMARY ERROR: " ++ e ++ "]"
  ⟨sorted.map AnnotatedTweet.timestamp, sum_text⟩

/-- The annotated item produced for one queue item: the item fields plus
the guarded backend response over the trimmed context. -/
def stepAnnotated (N : Nat) (backend : Backend) (s : LlmState) (t : Tweet) : AnnotatedTweet :=
  ⟨t.timestamp, t.from_user, t.content,
    annotate backend s.calls (trimCtx N (s.context ++ [⟨"user", user_msg t⟩]))⟩

/-- The per-item body of the llm_worker loop (lines 190-251): append the
user turn and trim the context, call the backend (error marker on
failure), append the assistant turn, append the annotated item to
commentary.jsonl and to the block buffer, and when the buffer reaches 10
produce a batch summary and clear the buffer. -/
def llm_step (N : Nat) (backend : Backend) (summary_prompt : String)
    (s : LlmState) (t : Tweet) : LlmState :=
  let ctx2 := trimCtx N (s.context ++ [⟨"user", user_msg t⟩])
  let out := stepAnnotated N backend s t
  let ctx3 := ctx2 ++ [⟨"assistant", out.llm_commentary⟩]
  let blk := s.block_tweets ++ [out]
  if blk.length ≥ 10 then
    ⟨ctx3, [], s.commentary_log ++ [out],
      s.summary_log ++ [summarizeBlock backend (s.calls + 1) summary_prompt blk],
      s.calls + 2⟩
  else
    ⟨ctx3, blk, s.commentary_log ++ [out], s.summary_log, s.calls + 1⟩

/-- The end-of-stream remainder step of llm_worker (lines 253-279): a
non-empty leftover block gets one more batch summary. -/
def llm_finish (backend : Backend) (summary_prompt : String) (s : LlmState) : LlmState :=
  if s.block_tweets.isEmpty then s
  else
    { s with
      summary_log := s.summary_log ++ [summarizeBlock backend s.calls summary_prompt s.block_tweets],
      calls := s.calls + 1 }

/-- The initial llm_worker state: the context holds the single fixed
preamble entry set at line 177 (an empty user message). -/
def llmInit : LlmState := ⟨[⟨"user", ""⟩], [], [], [], 0⟩

/-- llm_worker over the drained queue content (the items delivered by the
scraper, in queue order): fold the per-item body, then run the remainder
step.  The final generate_overall_report call of line 281 is modelled
separately. -/
def llm_worker (N : Nat) (backend : Backend) (summary_prompt : String)
    (tweets : List Tweet) : LlmState :=
  llm_finish backend summary_prompt (tweets.foldl (llm_step N backend summary_prompt) llmInit)

/-- generate_overall_report (409rollingsummary.py lines 23-63), returning
the meta_summary.txt file state: replay summary.jsonl skipping malformed
lines; with no summaries return without writing; otherwise make one
backend call over the concatenated summaries and, on success only, write
the stripped response with mode w (a full overwrite); a failed call
leaves the file untouched. -/
def generate_overall_report (backendResult : Except String String)
    (parse : String → Option SummaryRecord) (lines : List String)
    (meta : Option String) : Option String :=
  let summaries := replayLines parse lines
  if summaries = [] then meta
  else
    match backendResult with
    | Except.ok content => some content.trim
    | Except.error _ => meta

/-- The backend of the backend-failure-isolation scenario: call number k
raises, every other call succeeds with the text resp gives for it. -/
def failAt (k : Nat) (e : String) (resp : Nat → String) : Backend :=
  fun n _ => if n = k then Except.error e else Except.ok (resp n)

section Lemmas

lemma foldl_replayStep (parse : String → Option α) :
    ∀ (lines : List String) (acc : List α),
      lines.foldl (replayStep parse) acc = acc ++ lines.filterMap parse := by
  intro lines
  induction lines with
  | nil => intro acc; simp
  | cons l ls ih =>
    intro acc
    cases hp : parse l <;> simp [replayStep, hp, ih]

lemma replayLines_eq_filterMap (parse : String → Option α) (lines : List String) :
    replayLines parse lines = lines.filterMap parse := by
  simpa [replayLines] using foldl_replayStep parse lines []

lemma length_filterMap_eq_countP (parse : String → Option α) :
    ∀ lines : List String,
      (lines.filterMap parse).length = lines.countP (fun l => (parse l).isSome) := by
  intro lines
  induction lines with
  | nil => simp
  | cons l ls ih =>
    cases hp : parse l <;> simp [List.countP_cons, hp, ih]

lemma mem_setAdd {s : List String} {x y : String} :
    x ∈ setAdd s y ↔ x = y ∨ x ∈ s := by
  unfold setAdd
  split
  · rename_i h
    constructor
    · exact Or.inr
    · rintro (rfl | hx)
      · exact h
      · exact hx
  · exact List.mem_cons

lemma subset_setAdd (s : List String) (y : String) : s ⊆ setAdd s y := by
  intro x hx
  exact mem_setAdd.mpr (Or.inr hx)

lemma foldl_qput (l : List α) :
    ∀ q : PyQueue α, (l.foldl qput q).items = q.items ++ l ∧ (l.foldl qput q).maxsize = q.maxsize := by
  induction l with
  | nil => intro q; simp
  | cons a as ih =>
    intro q
    simpa [qput] using ih ⟨q.maxsize, q.items ++ [a]⟩

lemma put_would_block_of_maxsize_zero {q : PyQueue α} (h : q.maxsize = 0) :
    put_would_block q = false := by
  simp [put_would_block, h]

end Lemmas

/-- C8: replaying a log whose lines are N valid records interleaved with
M malformed lines yields exactly the N valid records in write order (the
loop agrees with the filterMap specification), the count of yielded
records is the count of parseable lines, and deleting any one malformed
line from anywhere in the log does not change the replayed records, so a
malformed line is skipped and never aborts the replay. -/
theorem C8_idempotent_replay {α : Type} (parse : String → Option α)
    (lines pre post : List String) (bad : String) :
    replayLines parse lines = validRecords parse lines ∧
    (replayLines parse lines).length = lines.countP (fun l => (parse l).isSome) ∧
    (parse bad = none →
      replayLines parse (pre ++ bad :: post) = replayLines parse (pre ++ post)) := by
  refine ⟨replayLines_eq_filterMap parse lines, ?_, ?_⟩
  · rw [replayLines_eq_filterMap]
    exact length_filterMap_eq_countP parse lines
  · intro hbad
    rw [replayLines_eq_filterMap, replayLines_eq_filterMap]
    simp [List.filterMap_append, hbad]

/-- Witness for C8 at a concrete log with one malformed middle line. -/
theorem C8_idempotent_replay_witness :
    (fun l => if l = "bad" then none else some l) "bad" = (none : Option String) ∧
    replayLines (fun l => if l = "bad" then none else some l) (["a"] ++ "bad" :: ["b"])
      = replayLines (fun l => if l = "bad" then none else some l) (["a"] ++ ["b"]) := by
  exact ⟨by decide,
    (C8_idempotent_replay (fun l => if l = "bad" then none else some l)
      [] ["a"] ["b"] "bad").2.2 (by decide)⟩

/-- C6 counterexample: the channel the orchestrator creates has maxsize
zero, the unlimited-capacity setting of queue.Queue, so after one hundred
puts the queue holds one hundred items and a further put still would not
block: there is no finite capacity bound. -/
theorem C6_counterexample :
    orchestratorQueue.maxsize = 0 ∧
    ((List.replicate 100 (⟨"t", "u", "c"⟩ : Tweet)).foldl qput orchestratorQueue).items.length = 100 ∧
    put_would_block ((List.replicate 100 (⟨"t", "u", "c"⟩ : Tweet)).foldl qput orchestratorQueue)
      = false := by
  refine ⟨rfl, ?_, ?_⟩
  · rw [(foldl_qput (List.replicate 100 (⟨"t", "u", "c"⟩ : Tweet)) orchestratorQueue).1]
    simp [orchestratorQueue]
  · exact put_would_block_of_maxsize_zero
      ((foldl_qput (List.replicate 100 (⟨"t", "u", "c"⟩ : Tweet)) orchestratorQueue).2)

/-- C6 amended: the channel between Collector and Annotation Worker is
created with maxsize zero, i.e. unlimited capacity: put never blocks on a
queue whose maxsize is zero, and after any sequence of puts the queue
holds every item put, so the queue grows without bound instead of
exerting backpressure. -/
theorem C6_amended :
    (∀ q : PyQueue Tweet, q.maxsize = 0 → put_would_block q = false) ∧
    orchestratorQueue.maxsize = 0 ∧
    (∀ l : List Tweet, (l.foldl qput orchestratorQueue).items = l ∧
      put_would_block (l.foldl qput orchestratorQueue) = false) := by
  refine ⟨?_, rfl, ?_⟩
  · intro q hq
    exact put_would_block_of_maxsize_zero hq
  · intro l
    have h := foldl_qput l orchestratorQueue
    constructor
    · rw [h.1]; simp [orchestratorQueue]
    · exact put_would_block_of_maxsize_zero h.2

/-- Witness for C6 amended at a concrete queue and put sequence. -/
theorem C6_amended_witness :
    (⟨0, [⟨"t", "u", "c"⟩]⟩ : PyQueue Tweet).maxsize = 0 ∧
    put_would_block (⟨0, [⟨"t", "u", "c"⟩]⟩ : PyQueue Tweet) = false := by
  exact ⟨rfl, C6_amended.1 ⟨0, [⟨"t", "u", "c"⟩]⟩ rfl⟩

/-- C5 counterexample: a candidate with a fresh timestamp but empty
content is marked in the seen set while nothing is appended to the item
log and nothing is pushed onto the queue, so a key is marked seen while
its item was neither durably logged nor delivered. -/
theorem C5_counterexample :
    "t1" ∈ (scrape_worker [] [⟨some "t1", "u", some ""⟩]).seen ∧
    (scrape_worker [] [⟨some "t1", "u", some ""⟩]).tweetLog = [] ∧
    (scrape_worker [] [⟨some "t1", "u", some ""⟩]).queue = [] := by
  decide

/-- C5 amended: the Collector marks the key in the Dedup Index
immediately after timestamp extraction, before the item is appended to
the Item log or pushed onto the Queue; when content extraction then fails
or yields empty content, the key stays marked while the item is neither
logged nor delivered (it is silently dropped), and only a candidate with
nonempty extracted content is appended to the log and pushed onto the
queue, in the same step as the marking. -/
theorem C5_amended (s : ScrapeState) (c : Candidate) (ts : String)
    (h1 : c.timestamp = some ts) (hts : ts ≠ "") (hseen : ts ∉ s.seen) :
    ts ∈ (processCandidate s c).seen ∧
    ((∃ body, c.content = some body ∧ body ≠ "" ∧
        (processCandidate s c).tweetLog = s.tweetLog ++ [⟨ts, c.from_user, body⟩] ∧
        (processCandidate s c).queue = s.queue ++ [⟨ts, c.from_user, body⟩]) ∨
      ((c.content = none ∨ c.content = some "") ∧
        (processCandidate s c).tweetLog = s.tweetLog ∧
        (processCandidate s c).queue = s.queue)) := by
  have hcond : ¬(ts = "" ∨ ts ∈ s.seen) := by
    rintro (h | h)
    · exact hts h
    · exact hseen h
  rcases c with ⟨cts, cu, cb⟩
  simp only [Candidate.timestamp] at h1
  subst h1
  cases cb with
  | none =>
    refine ⟨?_, Or.inr ⟨Or.inl rfl, ?_, ?_⟩⟩ <;>
      simp [processCandidate, hcond, mem_setAdd]
  | some body =>
    by_cases hb : body = ""
    · subst hb
      refine ⟨?_, Or.inr ⟨Or.inr rfl, ?_, ?_⟩⟩ <;>
        simp [processCandidate, hcond, mem_setAdd]
    · refine ⟨?_, Or.inl ⟨body, rfl, hb, ?_, ?_⟩⟩ <;>
        simp [processCandidate, hcond, hb, mem_setAdd]

/-- Witness for C5 amended at a concrete empty-content candidate. -/
theorem C5_amended_witness :
    ((⟨some "t1", "u", some ""⟩ : Candidate).timestamp = some "t1" ∧
      "t1" ≠ "" ∧ "t1" ∉ (⟨[], [], []⟩ : ScrapeState).seen) ∧
    ("t1" ∈ (processCandidate ⟨[], [], []⟩ ⟨some "t1", "u", some ""⟩).seen ∧
      ((∃ body, (⟨some "t1", "u", some ""⟩ : Candidate).content = some body ∧ body ≠ "" ∧
          (processCandidate ⟨[], [], []⟩ ⟨some "t1", "u", some ""⟩).tweetLog
            = (⟨[], [], []⟩ : ScrapeState).tweetLog ++ [⟨"t1", (⟨some "t1", "u", some ""⟩ : Candidate).from_user, body⟩] ∧
          (processCandidate ⟨[], [], []⟩ ⟨some "t1", "u", some ""⟩).queue
            = (⟨[], [], []⟩ : ScrapeState).queue ++ [⟨"t1", (⟨some "t1", "u", some ""⟩ : Candidate).from_user, body⟩]) ∨
        (((⟨some "t1", "u", some ""⟩ : Candidate).content = none ∨
            (⟨some "t1", "u", some ""⟩ : Candidate).content = some "") ∧
          (processCandidate ⟨[], [], []⟩ ⟨some "t1", "u", some ""⟩).tweetLog
            = (⟨[], [], []⟩ : ScrapeState).tweetLog ∧
          (processCandidate ⟨[], [], []⟩ ⟨some "t1", "u", some ""⟩).queue
            = (⟨[], [], []⟩ : ScrapeState).queue))) := by
  exact ⟨⟨rfl, by decide, by decide⟩,
    C5_amended ⟨[], [], []⟩ ⟨some "t1", "u", some ""⟩ "t1" rfl (by decide) (by decide)⟩

/-- C10: in the core pipeline the dedup key is the timestamp string
alone: given two candidates carrying the same fresh timestamp, the first
(with nonempty content) is logged and enqueued, and processing the second
afterwards changes nothing at all, whatever its author or content, so
only the first is logged, enqueued, and later annotated. -/
theorem C10_dedup_key_is_timestamp (s : ScrapeState) (c1 c2 : Candidate) (ts body : String)
    (h1 : c1.timestamp = some ts) (h2 : c2.timestamp = some ts)
    (hts : ts ≠ "") (hseen : ts ∉ s.seen)
    (hbody : c1.content = some body) (hb : body ≠ "") :
    processCandidate (processCandidate s c1) c2 = processCandidate s c1 ∧
    (processCandidate s c1).queue = s.queue ++ [⟨ts, c1.from_user, body⟩] ∧
    (processCandidate s c1).tweetLog = s.tweetLog ++ [⟨ts, c1.from_user, body⟩] := by
  have hcond : ¬(ts = "" ∨ ts ∈ s.seen) := by
    rintro (h | h)
    · exact hts h
    · exact hseen h
  have hstep : processCandidate s c1 =
      ⟨setAdd s.seen ts, s.tweetLog ++ [⟨ts, c1.from_user, body⟩],
        s.queue ++ [⟨ts, c1.from_user, body⟩]⟩ := by
    simp [processCandidate, h1, hbody, hcond, hb]
  refine ⟨?_, by rw [hstep], by rw [hstep]⟩
  rw [hstep]
  have hmem : ts ∈ setAdd s.seen ts := mem_setAdd.mpr (Or.inl rfl)
  simp [processCandidate, h2, hmem]

/-- Witness for C10 at two concrete candidates sharing a timestamp but
differing in author and content. -/
theorem C10_dedup_key_is_timestamp_witness :
    ((⟨some "t1", "a", some "x"⟩ : Candidate).timestamp = some "t1" ∧
      (⟨some "t1", "b", some "y"⟩ : Candidate).timestamp = some "t1" ∧
      "t1" ≠ "" ∧ "t1" ∉ (⟨[], [], []⟩ : ScrapeState).seen ∧
      (⟨some "t1", "a", some "x"⟩ : Candidate).content = some "x" ∧ "x" ≠ "") ∧
    (processCandidate (processCandidate ⟨[], [], []⟩ ⟨some "t1", "a", some "x"⟩)
        ⟨some "t1", "b", some "y"⟩
      = processCandidate ⟨[], [], []⟩ ⟨some "t1", "a", some "x"⟩ ∧
      (processCandidate ⟨[], [], []⟩ ⟨some "t1", "a", some "x"⟩).queue
        = (⟨[], [], []⟩ : ScrapeState).queue ++ [⟨"t1", "a", "x"⟩] ∧
      (processCandidate ⟨[], [], []⟩ ⟨some "t1", "a", some "x"⟩).tweetLog
        = (⟨[], [], []⟩ : ScrapeState).tweetLog ++ [⟨"t1", "a", "x"⟩]) := by
  exact ⟨⟨rfl, rfl, by decide, by decide, rfl, by decide⟩,
    C10_dedup_key_is_timestamp ⟨[], [], []⟩ ⟨some "t1", "a", some "x"⟩
      ⟨some "t1", "b", some "y"⟩ "t1" "x" rfl rfl (by decide) (by decide) rfl (by decide)⟩

/-- C7 counterexample: with a summary log that replays to one record but
a failing backend call, no MetaReport is written (the file state stays
none), refuting that a MetaReport is written whenever at least one
BatchSummary exists. -/
theorem C7_counterexample :
    replayLines (fun _ => some (⟨["t"], "s"⟩ : SummaryRecord)) ["line"] ≠ [] ∧
    generate_overall_report (Except.error "down")
      (fun _ => some (⟨["t"], "s"⟩ : SummaryRecord)) ["line"] none = none := by
  decide

/-- C7 amended: after the Annotation Worker drains, report generation is
skipped without error when zero BatchSummary records replay from the log;
when at least one exists and the single backend call succeeds, exactly
one MetaReport is written, and it is written by overwriting: the
resulting file content is exactly the stripped response, independent of
whatever the file held before; when the backend call fails, no MetaReport
is written and the file is left untouched. -/
theorem C7_amended (backendResult : Except String String)
    (parse : String → Option SummaryRecord) (lines : List String) (meta0 : Option String) :
    (replayLines parse lines = [] →
      generate_overall_report backendResult parse lines meta0 = meta0) ∧
    (∀ c, replayLines parse lines ≠ [] → backendResult = Except.ok c →
      ∀ m1 m2 : Option String,
        generate_overall_report backendResult parse lines m1 = some c.trim ∧
        generate_overall_report backendResult parse lines m2
          = generate_overall_report backendResult parse lines m1) ∧
    (∀ e, backendResult = Except.error e →
      generate_overall_report backendResult parse lines meta0 = meta0) := by
  refine ⟨?_, ?_, ?_⟩
  · intro h
    simp [generate_overall_report, h]
  · intro c hne hok m1 m2
    subst hok
    constructor <;> simp [generate_overall_report, hne]
  · intro e herr
    subst herr
    simp only [generate_overall_report]
    split <;> rfl

/-- Witness for C7 amended: an empty summary log skips the report. -/
theorem C7_amended_witness :
    replayLines (fun _ => some (⟨["t"], "s"⟩ : SummaryRecord)) [] = [] ∧
    generate_overall_report (Except.ok "x")
      (fun _ => some (⟨["t"], "s"⟩ : SummaryRecord)) [] none = none := by
  exact ⟨rfl,
    (C7_amended (Except.ok "x") (fun _ => some (⟨["t"], "s"⟩ : SummaryRecord)) [] none).1 rfl⟩

section WorkerLemmas

lemma rebuildStep_subset (p : String → Option String) (seen : List String) (line : String) :
    seen ⊆ rebuildStep p seen line := by
  intro x hx
  unfold rebuildStep
  cases p line with
  | none => exact hx
  | some ts =>
    by_cases h : ts = ""
    · simpa [h] using hx
    · simp only [if_neg h]
      exact subset_setAdd seen ts hx

lemma foldl_rebuild_subset (p : String → Option String) :
    ∀ (lines : List String) (acc : List String), acc ⊆ lines.foldl (rebuildStep p) acc := by
  intro lines
  induction lines with
  | nil => intro acc x hx; exact hx
  | cons l ls ih =>
    intro acc x hx
    rw [List.foldl_cons]
    exact ih (rebuildStep p acc l) (rebuildStep_subset p acc l hx)

lemma mem_foldl_rebuild (p : String → Option String) :
    ∀ (lines : List String) (acc : List String) (line ts : String),
      line ∈ lines → p line = some ts → ts ≠ "" →
      ts ∈ lines.foldl (rebuildStep p) acc := by
  intro lines
  induction lines with
  | nil => intro acc line ts h; exact absurd h (List.not_mem_nil line)
  | cons l ls ih =>
    intro acc line ts hmem hp hts
    rcases List.mem_cons.mp hmem with rfl | hmem
    · rw [List.foldl_cons]
      apply foldl_rebuild_subset p ls (rebuildStep p acc line)
      simp only [rebuildStep, hp, if_neg hts]
      exact mem_setAdd.mpr (Or.inl rfl)
    · rw [List.foldl_cons]
      exact ih (rebuildStep p acc l) line ts hmem hp hts

lemma mem_rebuildSeen {p : String → Option String} {lines : List String} {line ts : String}
    (hmem : line ∈ lines) (hp : p line = some ts) (hts : ts ≠ "") :
    ts ∈ rebuildSeen p lines :=
  mem_foldl_rebuild p lines [] line ts hmem hp hts

lemma processCandidate_seen_subset (s : ScrapeState) (c : Candidate) :
    s.seen ⊆ (processCandidate s c).seen := by
  intro x hx
  rcases c with ⟨cts, cu, cb⟩
  unfold processCandidate
  cases cts with
  | none => exact hx
  | some ts =>
    dsimp only
    split
    · exact hx
    · cases cb with
      | none => exact subset_setAdd s.seen ts hx
      | some body =>
        dsimp only
        split
        · exact subset_setAdd s.seen ts hx
        · exact subset_setAdd s.seen ts hx

lemma processCandidate_queue_mem (s : ScrapeState) (c : Candidate) :
    ∀ t ∈ (processCandidate s c).queue, t ∈ s.queue ∨ t.timestamp ∉ s.seen := by
  rcases c with ⟨cts, cu, cb⟩
  unfold processCandidate
  cases cts with
  | none => exact fun t ht => Or.inl ht
  | some ts =>
    dsimp only
    split
    · exact fun t ht => Or.inl ht
    · rename_i hcond
      cases cb with
      | none => exact fun t ht => Or.inl ht
      | some body =>
        dsimp only
        split
        · exact fun t ht => Or.inl ht
        · intro t ht
          rcases List.mem_append.mp ht with h | h
          · exact Or.inl h
          · rcases List.mem_singleton.mp h with rfl
            right
            intro hmem
            exact hcond (Or.inr hmem)

lemma scrape_fold_queue (seen0 : List String) :
    ∀ (cands : List Candidate) (s : ScrapeState),
      seen0 ⊆ s.seen → (∀ t ∈ s.queue, t.timestamp ∉ seen0) →
      ∀ t ∈ (cands.foldl processCandidate s).queue, t.timestamp ∉ seen0 := by
  intro cands
  induction cands with
  | nil => intro s _ h2; exact h2
  | cons c cs ih =>
    intro s h1 h2
    refine ih (processCandidate s c) (fun _ hx => processCandidate_seen_subset s c (h1 hx)) ?_
    intro t ht
    rcases processCandidate_queue_mem s c t ht with h | h
    · exact h2 t h
    · exact fun hmem => h (h1 hmem)

lemma scrape_worker_queue_not_seen (seen0 : List String) (cands : List Candidate) :
    ∀ t ∈ (scrape_worker seen0 cands).queue, t.timestamp ∉ seen0 := by
  refine scrape_fold_queue seen0 cands ⟨seen0, [], []⟩ (fun _ hx => hx) ?_
  intro t ht
  exact absurd ht (List.not_mem_nil t)

lemma llm_step_commentary_log (N : Nat) (b : Backend) (sp : String) (s : LlmState) (t : Tweet) :
    (llm_step N b sp s t).commentary_log = s.commentary_log ++ [stepAnnotated N b s t] := by
  simp only [llm_step]
  split <;> rfl

lemma llm_finish_commentary_log (b : Backend) (sp : String) (s : LlmState) :
    (llm_finish b sp s).commentary_log = s.commentary_log := by
  simp only [llm_finish]
  split <;> rfl

lemma foldl_llm_commentary_map (N : Nat) (b : Backend) (sp : String) :
    ∀ (tweets : List Tweet) (s : LlmState),
      ((tweets.foldl (llm_step N b sp) s).commentary_log).map AnnotatedTweet.timestamp
        = s.commentary_log.map AnnotatedTweet.timestamp ++ tweets.map Tweet.timestamp := by
  intro tweets
  induction tweets with
  | nil => intro s; simp
  | cons t ts ih =>
    intro s
    rw [List.foldl_cons, ih, llm_step_commentary_log]
    simp [stepAnnotated]

lemma llm_worker_commentary_map (N : Nat) (b : Backend) (sp : String) (tweets : List Tweet) :
    ((llm_worker N b sp tweets).commentary_log).map AnnotatedTweet.timestamp
      = tweets.map Tweet.timestamp := by
  unfold llm_worker
  rw [llm_finish_commentary_log, foldl_llm_commentary_map]
  simp [llmInit]

end WorkerLemmas

/-- C1: the seen set rebuilt at session start by replaying the
commentary log contains every timestamp recorded there, and the Collector
skips every candidate whose timestamp is in that set, so no item whose
key appears in the annotated-item log is ever enqueued again, and running
the Annotation Worker over the queue annotates no such item either;
this is exactly the crash-resume situation, the log lines being whatever
a previous session left behind. -/
theorem C1_seen_keys_not_reprocessed (parseLine : String → Option String)
    (logLines : List String) (cands : List Candidate)
    (N : Nat) (backend : Backend) (sp : String) (line ts : String)
    (hline : line ∈ logLines) (hparse : parseLine line = some ts) (hts : ts ≠ "") :
    (∀ t ∈ (scrape_worker (rebuildSeen parseLine logLines) cands).queue, t.timestamp ≠ ts) ∧
    (∀ a ∈ (llm_worker N backend sp
        (scrape_worker (rebuildSeen parseLine logLines) cands).queue).commentary_log,
      a.timestamp ≠ ts) := by
  have hseen : ts ∈ rebuildSeen parseLine logLines := mem_rebuildSeen hline hparse hts
  have hqueue := scrape_worker_queue_not_seen (rebuildSeen parseLine logLines) cands
  refine ⟨fun t ht heq => hqueue t ht (heq ▸ hseen), ?_⟩
  intro a ha heq
  have hmap : a.timestamp ∈ ((llm_worker N backend sp
      (scrape_worker (rebuildSeen parseLine logLines) cands).queue).commentary_log).map
        AnnotatedTweet.timestamp :=
    List.mem_map.mpr ⟨a, ha, rfl⟩
  rw [llm_worker_commentary_map] at hmap
  rcases List.mem_map.mp hmap with ⟨t, htq, hteq⟩
  exact hqueue t htq (by rw [hteq, heq]; exact hseen)

/-- Witness for C1 at a concrete one-line log and two candidates, one of
which repeats the logged timestamp. -/
theorem C1_seen_keys_not_reprocessed_witness :
    ("L" ∈ ["L"] ∧
      (fun l => if l = "L" then some "t1" else none) "L" = some "t1" ∧ "t1" ≠ "") ∧
    (⟨"t2", "u", "y"⟩ : Tweet) ∈ (scrape_worker
      (rebuildSeen (fun l => if l = "L" then some "t1" else none) ["L"])
      [⟨some "t1", "u", some "x"⟩, ⟨some "t2", "u", some "y"⟩]).queue ∧
    (⟨"t2", "u", "y"⟩ : Tweet).timestamp ≠ "t1" := by
  refine ⟨⟨by decide, by decide, by decide⟩, by decide, ?_⟩
  exact (C1_seen_keys_not_reprocessed (fun l => if l = "L" then some "t1" else none)
    ["L"] [⟨some "t1", "u", some "x"⟩, ⟨some "t2", "u", some "y"⟩]
    10 (fun _ _ => Except.ok "c") "" "L" "t1"
    (by decide) (by decide) (by decide)).1 ⟨"t2", "u", "y"⟩ (by decide)

section ContextLemmas

lemma trimCtx_length_le (N : Nat) (hN : 1 ≤ N) (ctx1 : List Msg) :
    (trimCtx N ctx1).length ≤ N + 1 := by
  unfold trimCtx
  split
  · rename_i h
    have hN0 : ¬ N = 0 := by omega
    simp only [pySliceLast, if_neg hN0, List.length_append, List.length_take, List.length_drop]
    omega
  · rename_i h
    omega

lemma llm_step_context_length_le (N : Nat) (hN : 1 ≤ N) (b : Backend) (sp : String)
    (s : LlmState) (t : Tweet) :
    (llm_step N b sp s t).context.length ≤ N + 2 := by
  have h := trimCtx_length_le N hN (s.context ++ [⟨"user", user_msg t⟩])
  simp only [llm_step]
  split <;> dsimp only <;> simp only [List.length_append, List.length_cons, List.length_nil] <;> omega

lemma foldl_llm_context_le (N : Nat) (hN : 1 ≤ N) (b : Backend) (sp : String) :
    ∀ (tweets : List Tweet) (s : LlmState),
      s.context.length ≤ N + 2 →
      ((tweets.foldl (llm_step N b sp) s).context).length ≤ N + 2 := by
  intro tweets
  induction tweets with
  | nil => intro s hs; exact hs
  | cons t ts ih =>
    intro s _
    rw [List.foldl_cons]
    exact ih (llm_step N b sp s t) (llm_step_context_length_le N hN b sp s t)

lemma llm_finish_context (b : Backend) (sp : String) (s : LlmState) :
    (llm_finish b sp s).context = s.context := by
  simp only [llm_finish]
  split <;> rfl

end ContextLemmas

/-- C4 counterexample: with rolling context length N = 1, after the
Annotation Worker has processed a single item exchange the RollingContext
holds three entries (preamble, user turn, assistant turn), which exceeds
N + 1 = 2: the claimed bound fails because the assistant turn is appended
after the trim to N + 1 entries. -/
theorem C4_counterexample :
    ((llm_worker 1 (fun _ _ => Except.ok "c") "" [⟨"t1", "u", "x"⟩]).context).length = 3 ∧
    ¬ (3 : Nat) ≤ 1 + 1 := by
  exact ⟨rfl, by decide⟩

/-- C4 amended: for any configured rolling context length N of at least
one, after any number of item exchanges the RollingContext never exceeds
length N + 2: the trim before the backend call bounds it by N + 1 and the
assistant turn appended afterwards can push it one beyond.  (For N = 0
the Python slice of the last zero entries is the whole list, so no bound
holds at all.) -/
theorem C4_amended (N : Nat) (hN : 1 ≤ N) (backend : Backend) (sp : String)
    (tweets : List Tweet) :
    ((llm_worker N backend sp tweets).context).length ≤ N + 2 := by
  unfold llm_worker
  rw [llm_finish_context]
  exact foldl_llm_context_le N hN backend sp tweets llmInit (by simp [llmInit])

/-- Witness for C4 amended at a concrete run with N = 1. -/
theorem C4_amended_witness :
    (1 : Nat) ≤ 1 ∧
    ((llm_worker 1 (fun _ _ => Except.ok "c") "" [⟨"t1", "u", "x"⟩, ⟨"t2", "u", "y"⟩]).context).length
      ≤ 1 + 2 := by
  exact ⟨by decide,
    C4_amended 1 (by decide) (fun _ _ => Except.ok "c") "" [⟨"t1", "u", "x"⟩, ⟨"t2", "u", "y"⟩]⟩

section SummaryLemmas

lemma summarizeBlock_block_tweets (b : Backend) (c : Nat) (sp : String)
    (blk : List AnnotatedTweet) :
    (summarizeBlock b c sp blk).block_tweets
      = (List.insertionSort byTimestamp blk).map AnnotatedTweet.timestamp := rfl

lemma summarizeBlock_sorted (b : Backend) (c : Nat) (sp : String) (blk : List AnnotatedTweet) :
    List.Sorted (· ≤ ·) (summarizeBlock b c sp blk).block_tweets := by
  rw [summarizeBlock_block_tweets]
  have h : List.Pairwise byTimestamp (List.insertionSort byTimestamp blk) :=
    List.sorted_insertionSort byTimestamp blk
  exact List.pairwise_map.mpr h

lemma summarizeBlock_length (b : Backend) (c : Nat) (sp : String) (blk : List AnnotatedTweet) :
    (summarizeBlock b c sp blk).block_tweets.length = blk.length := by
  rw [summarizeBlock_block_tweets, List.length_map, List.length_insertionSort]

lemma summarizeBlock_perm (b : Backend) (c : Nat) (sp : String) (blk : List AnnotatedTweet) :
    List.Perm (summarizeBlock b c sp blk).block_tweets (blk.map AnnotatedTweet.timestamp) := by
  rw [summarizeBlock_block_tweets]
  exact (List.perm_insertionSort byTimestamp blk).map AnnotatedTweet.timestamp

lemma mem_summary_log_step (N : Nat) (b : Backend) (sp : String) (s : LlmState) (t : Tweet) :
    ∀ r ∈ (llm_step N b sp s t).summary_log,
      r ∈ s.summary_log ∨ ∃ c blk, r = summarizeBlock b c sp blk := by
  simp only [llm_step]
  split
  · intro r hr
    dsimp only at hr
    rcases List.mem_append.mp hr with h | h
    · exact Or.inl h
    · rcases List.mem_singleton.mp h with rfl
      exact Or.inr ⟨s.calls + 1, s.block_tweets ++ [stepAnnotated N b s t], rfl⟩
  · intro r hr
    exact Or.inl hr

lemma mem_summary_log_fold (N : Nat) (b : Backend) (sp : String) :
    ∀ (tweets : List Tweet) (s : LlmState) (r : SummaryRecord),
      r ∈ ((tweets.foldl (llm_step N b sp) s).summary_log) →
      r ∈ s.summary_log ∨ ∃ c blk, r = summarizeBlock b c sp blk := by
  intro tweets
  induction tweets with
  | nil => intro s r hr; exact Or.inl hr
  | cons t ts ih =>
    intro s r hr
    rw [List.foldl_cons] at hr
    rcases ih (llm_step N b sp s t) r hr with h | h
    · exact mem_summary_log_step N b sp s t r h
    · exact Or.inr h

lemma mem_summary_log_finish (b : Backend) (sp : String) (s : LlmState) (r : SummaryRecord) :
    r ∈ (llm_finish b sp s).summary_log →
    r ∈ s.summary_log ∨ ∃ c blk, r = summarizeBlock b c sp blk := by
  simp only [llm_finish]
  split
  · exact fun hr => Or.inl hr
  · intro hr
    dsimp only at hr
    rcases List.mem_append.mp hr with h | h
    · exact Or.inl h
    · rcases List.mem_singleton.mp h with rfl
      exact Or.inr ⟨s.calls, s.block_tweets, rfl⟩

end SummaryLemmas

/-- C9: every BatchSummary the Annotation Worker produces, whether for a
full block of ten or for the end-of-stream remainder, lists its member
keys sorted by timestamp ascending, whatever order the items arrived from
the queue, because the Batch Summarizer sorts the block by timestamp
before constructing its single whole-batch prompt. -/
theorem C9_batches_sorted_by_timestamp (N : Nat) (backend : Backend) (sp : String)
    (tweets : List Tweet) :
    ∀ r ∈ (llm_worker N backend sp tweets).summary_log,
      List.Sorted (· ≤ ·) r.block_tweets := by
  intro r hr
  unfold llm_worker at hr
  rcases mem_summary_log_finish backend sp _ r hr with h | ⟨c, blk, rfl⟩
  · rcases mem_summary_log_fold N backend sp tweets llmInit r h with h2 | ⟨c, blk, rfl⟩
    · exact absurd h2 (List.not_mem_nil r)
    · exact summarizeBlock_sorted backend c sp blk
  · exact summarizeBlock_sorted backend c sp blk

/-- Witness for C9 at a concrete one-item run: the remainder batch record
of that run is in the summary log and is sorted. -/
theorem C9_batches_sorted_by_timestamp_witness :
    summarizeBlock (fun _ _ => Except.ok "c") 1 ""
        [stepAnnotated 10 (fun _ _ => Except.ok "c") llmInit ⟨"t1", "u", "x"⟩]
      ∈ (llm_worker 10 (fun _ _ => Except.ok "c") "" [⟨"t1", "u", "x"⟩]).summary_log ∧
    List.Sorted (· ≤ ·) (summarizeBlock (fun _ _ => Except.ok "c") 1 ""
        [stepAnnotated 10 (fun _ _ => Except.ok "c") llmInit ⟨"t1", "u", "x"⟩]).block_tweets := by
  have hmem : summarizeBlock (fun _ _ => Except.ok "c") 1 ""
        [stepAnnotated 10 (fun _ _ => Except.ok "c") llmInit ⟨"t1", "u", "x"⟩]
      ∈ (llm_worker 10 (fun _ _ => Except.ok "c") "" [⟨"t1", "u", "x"⟩]).summary_log := by
    simp [llm_worker, llm_step, llm_finish, llmInit]
  exact ⟨hmem, C9_batches_sorted_by_timestamp 10 (fun _ _ => Except.ok "c") ""
    [⟨"t1", "u", "x"⟩] _ hmem⟩

section BatchLemmas

lemma llmInit_block_tweets : llmInit.block_tweets = [] := rfl

lemma llmInit_summary_log : llmInit.summary_log = [] := rfl

lemma llm_finish_of_empty (b : Backend) (sp : String) (s : LlmState)
    (h : s.block_tweets = []) : llm_finish b sp s = s := by
  simp [llm_finish, h]

lemma llm_finish_of_nonempty (b : Backend) (sp : String) (s : LlmState)
    (h : s.block_tweets ≠ []) :
    (llm_finish b sp s).summary_log
      = s.summary_log ++ [summarizeBlock b s.calls sp s.block_tweets] := by
  simp only [llm_finish]
  rw [if_neg (by simpa using h)]

lemma llm_step_of_trigger (N : Nat) (b : Backend) (sp : String) (s : LlmState) (t : Tweet)
    (h : s.block_tweets.length + 1 ≥ 10) :
    (llm_step N b sp s t).summary_log
        = s.summary_log
          ++ [summarizeBlock b (s.calls + 1) sp (s.block_tweets ++ [stepAnnotated N b s t])] ∧
    (llm_step N b sp s t).block_tweets = [] := by
  have h' : (s.block_tweets ++ [stepAnnotated N b s t]).length ≥ 10 := by
    rw [List.length_append]
    simpa using h
  constructor <;> simp only [llm_step, if_pos h']

lemma llm_step_no_trigger (N : Nat) (b : Backend) (sp : String) (s : LlmState) (t : Tweet)
    (h : s.block_tweets.length + 1 < 10) :
    (llm_step N b sp s t).summary_log = s.summary_log ∧
    (llm_step N b sp s t).block_tweets = s.block_tweets ++ [stepAnnotated N b s t] := by
  have h' : ¬ (s.block_tweets ++ [stepAnnotated N b s t]).length ≥ 10 := by
    rw [List.length_append]
    simp only [List.length_cons, List.length_nil]
    omega
  constructor <;> simp only [llm_step, if_neg h']

lemma llm_fold_pattern (N : Nat) (b : Backend) (sp : String) :
    ∀ (tweets : List Tweet) (s : LlmState),
      s.block_tweets.length < 10 →
      ((tweets.foldl (llm_step N b sp) s).summary_log).map (fun r => r.block_tweets.length)
          = s.summary_log.map (fun r => r.block_tweets.length)
            ++ List.replicate ((s.block_tweets.length + tweets.length) / 10) 10
        ∧ ((tweets.foldl (llm_step N b sp) s).block_tweets).length
          = (s.block_tweets.length + tweets.length) % 10 := by
  intro tweets
  induction tweets with
  | nil =>
    intro s hs
    simp [Nat.div_eq_of_lt hs, Nat.mod_eq_of_lt hs]
  | cons t ts ih =>
    intro s hs
    rw [List.foldl_cons]
    simp only [List.length_cons]
    by_cases h : s.block_tweets.length + 1 ≥ 10
    · obtain ⟨h1, h2⟩ := llm_step_of_trigger N b sp s t h
      obtain ⟨ih1, ih2⟩ := ih (llm_step N b sp s t) (by rw [h2]; simp)
      have hb9 : s.block_tweets.length = 9 := by omega
      constructor
      · rw [ih1, h1, h2]
        simp only [List.map_append, List.map_cons, List.map_nil,
          summarizeBlock_length, List.length_append, List.length_cons, List.length_nil,
          Nat.zero_add, List.append_assoc, List.singleton_append, hb9]
        congr 1
        rw [show (9 + (ts.length + 1)) / 10 = ts.length / 10 + 1 from by omega,
          List.replicate_succ]
      · rw [ih2, h2]
        simp only [List.length_nil, Nat.zero_add, hb9]
        omega
    · obtain ⟨h1, h2⟩ := llm_step_no_trigger N b sp s t (by omega)
      have hlen : (llm_step N b sp s t).block_tweets.length = s.block_tweets.length + 1 := by
        rw [h2, List.length_append, List.length_cons, List.length_nil]
      obtain ⟨ih1, ih2⟩ := ih (llm_step N b sp s t) (by rw [hlen]; omega)
      constructor
      · rw [ih1, h1, hlen]
        congr 2
        omega
      · rw [ih2, hlen]
        omega

end BatchLemmas

/-- C3: for every input stream, the Annotation Worker produces one
BatchSummary per full block of ten annotated items, in order, plus one
more for a non-empty remainder at end-of-stream, so the member-key counts
are exactly length / 10 copies of ten followed by the remainder count
when it is nonzero; in particular a run over 23 annotated items produces
exactly three BatchSummary records with member-key counts 10, 10, 3. -/
theorem C3_batch_trigger (N : Nat) (backend : Backend) (sp : String) (tweets : List Tweet) :
    ((llm_worker N backend sp tweets).summary_log).map (fun r => r.block_tweets.length)
        = List.replicate (tweets.length / 10) 10
          ++ (if tweets.length % 10 = 0 then [] else [tweets.length % 10]) ∧
    (tweets.length = 23 →
      ((llm_worker N backend sp tweets).summary_log).map (fun r => r.block_tweets.length)
        = [10, 10, 3]) := by
  have main : ((llm_worker N backend sp tweets).summary_log).map (fun r => r.block_tweets.length)
      = List.replicate (tweets.length / 10) 10
        ++ (if tweets.length % 10 = 0 then [] else [tweets.length % 10]) := by
    unfold llm_worker
    obtain ⟨h1, h2⟩ := llm_fold_pattern N backend sp tweets llmInit
      (by rw [llmInit_block_tweets]; simp)
    simp only [llmInit_block_tweets, llmInit_summary_log, List.map_nil, List.nil_append,
      List.length_nil, Nat.zero_add] at h1 h2
    by_cases h0 : tweets.length % 10 = 0
    · have hempty : (tweets.foldl (llm_step N backend sp) llmInit).block_tweets = [] :=
        List.length_eq_zero.mp (by rw [h2]; exact h0)
      rw [llm_finish_of_empty backend sp _ hempty, h1, h0]
      simp
    · have hne : (tweets.foldl (llm_step N backend sp) llmInit).block_tweets ≠ [] := by
        intro hc
        rw [hc] at h2
        exact h0 h2.symm
      rw [llm_finish_of_nonempty backend sp _ hne]
      simp only [List.map_append, List.map_cons, List.map_nil, summarizeBlock_length, h1, h2]
      rw [if_neg h0]
  refine ⟨main, ?_⟩
  intro h23
  rw [main, h23]
  decide


/-- Witness for C3 at a concrete run over 23 items. -/
theorem C3_batch_trigger_witness :
    (List.replicate 23 (⟨"t", "u", "c"⟩ : Tweet)).length = 23 ∧
    ((llm_worker 10 (fun _ _ => Except.ok "r") ""
        (List.replicate 23 (⟨"t", "u", "c"⟩ : Tweet))).summary_log).map
          (fun r => r.block_tweets.length) = [10, 10, 3] := by
  refine ⟨by simp, ?_⟩
  exact (C3_batch_trigger 10 (fun _ _ => Except.ok "r") ""
    (List.replicate 23 (⟨"t", "u", "c"⟩ : Tweet))).2 (by simp)

/-- C2: with the backend failing exactly on call index 4 (the fifth of
ten annotation calls) and succeeding on every other call, a run over ten
items annotates items one to four and six to ten with the stripped
backend responses, persists for the fifth an AnnotatedItem whose
annotation field is the distinguishable error marker built from the
exception text, and still produces the one batch of size ten whose member
keys are exactly the ten item timestamps, the failed item included. -/
theorem C2_backend_failure_isolation (N : Nat) (sp e : String) (resp : Nat → String)
    (t0 t1 t2 t3 t4 t5 t6 t7 t8 t9 : Tweet) :
    ((llm_worker N (failAt 4 e resp) sp
        [t0, t1, t2, t3, t4, t5, t6, t7, t8, t9]).commentary_log).map
          AnnotatedTweet.llm_commentary
      = [(resp 0).trim, (resp 1).trim, (resp 2).trim, (resp 3).trim,
          "[LLM ERROR: " ++ e ++ "]",
          (resp 5).trim, (resp 6).trim, (resp 7).trim, (resp 8).trim, (resp 9).trim] ∧
    ((llm_worker N (failAt 4 e resp) sp
        [t0, t1, t2, t3, t4, t5, t6, t7, t8, t9]).summary_log).map
          (fun r => r.block_tweets.length) = [10] ∧
    List.Perm
      (((llm_worker N (failAt 4 e resp) sp
          [t0, t1, t2, t3, t4, t5, t6, t7, t8, t9]).summary_log).map
            (fun r => r.block_tweets)).flatten
      [t0.timestamp, t1.timestamp, t2.timestamp, t3.timestamp, t4.timestamp,
        t5.timestamp, t6.timestamp, t7.timestamp, t8.timestamp, t9.timestamp] := by
  refine ⟨?_, ?_, ?_⟩
  · simp [llm_worker, llm_step, llm_finish, llmInit, stepAnnotated, annotate, failAt]
  · simp [llm_worker, llm_step, llm_finish, llmInit, summarizeBlock_length]
  · have hperm : ∀ blk : List AnnotatedTweet, ∀ c : Nat,
        List.Perm (summarizeBlock (failAt 4 e resp) c sp blk).block_tweets
          (blk.map AnnotatedTweet.timestamp) :=
      fun blk c => summarizeBlock_perm (failAt 4 e resp) c sp blk
    simp [llm_worker, llm_step, llm_finish, llmInit]
    refine (hperm _ _).trans ?_
    simp [stepAnnotated]

end Xperiment
